import Mathlib

/-!
Verification development for an HR record-keeping application
(employee search, bulk salary adjustment, pay reports).

The embedding follows the source components:
* `SalaryAdjustments.handleSubmit` — bulk percentage salary adjustment
  over a half-open salary range, one store update per matching row.
* `EmployeeSearch.handleSearch` — search by name (case-insensitive
  substring), SSN (exact equality) or numeric employee id.
* `Reports.fetchPayByJobTitle` / `fetchPayByDivision` — month filter on
  pay statements followed by an in-memory group-by-sum-count reduction.

Numeric fields are embedded as exact rationals; the JavaScript
`Math.round` is `⌊x + 1/2⌋` (round half toward positive infinity),
which agrees with the ECMAScript definition on all finite inputs.
-/

namespace HR

/-- Employee record, after `src/project/src/types/employee.ts`.
`status` keeps the raw string of the source enum. -/
structure Employee where
  emp_id : Int
  first_name : String
  last_name : String
  ssn : String
  email : String
  phone : String
  hire_date : String
  job_title : String
  division : String
  salary : ℚ
  status : String
  deriving Repr, DecidableEq

/-- JavaScript `Math.round`: round half up, `⌊x + 1/2⌋`. -/
def jsRound (x : ℚ) : ℤ := ⌊x + 1 / 2⌋

/-- The range filter of `handleSubmit`:
`.gte('salary', minSal).lt('salary', maxSal)`, i.e. `min ≤ salary < max`. -/
def inSalaryRange (minS maxS : ℚ) (e : Employee) : Bool :=
  decide (minS ≤ e.salary) && decide (e.salary < maxS)

/-- The per-employee new salary of `handleSubmit`:
`Math.round(emp.salary * (1 + percentageIncrease))` with
`percentageIncrease = p / 100`. -/
def adjustSalary (p : ℚ) (e : Employee) : Employee :=
  { e with salary := ((jsRound (e.salary * (1 + p / 100)) : ℤ) : ℚ) }

/-- One store update
`update({salary: v}).eq('emp_id', id)`: every row whose `emp_id` equals
`id` gets salary `v` (by the primary-key constraint there is at most one). -/
def updateSalaryById (store : List Employee) (id : Int) (v : ℚ) : List Employee :=
  store.map fun e => if e.emp_id == id then { e with salary := v } else e

/-- The update list built by `handleSubmit`
(`employees.map(emp => ({emp_id, salary: Math.round(...)}))`). -/
def bulkUpdates (p : ℚ) (matching : List Employee) : List (Int × ℚ) :=
  matching.map fun e => (e.emp_id, ((jsRound (e.salary * (1 + p / 100)) : ℤ) : ℚ))

/-- Result surfaced by `handleSubmit`: the store after the loop, the
updates that were issued, the affected count and the user message. -/
structure AdjustResult where
  store : List Employee
  updatesIssued : List (Int × ℚ)
  affected : Nat
  message : String
  deriving Repr, DecidableEq

/-- `SalaryAdjustments.handleSubmit`, success path: fetch the rows with
`min ≤ salary < max`; if none, report zero affected and issue no update;
otherwise issue one `updateSalaryById` per matching row, in fetch order. -/
def bulkAdjust (p minS maxS : ℚ) (store : List Employee) : AdjustResult :=
  if (store.filter (inSalaryRange minS maxS)).isEmpty then
    ⟨store, [], 0, "No employees found in the specified salary range."⟩
  else
    ⟨(bulkUpdates p (store.filter (inSalaryRange minS maxS))).foldl
        (fun st u => updateSalaryById st u.1 u.2) store,
      bulkUpdates p (store.filter (inSalaryRange minS maxS)),
      (store.filter (inSalaryRange minS maxS)).length,
      "Successfully updated " ++ toString (store.filter (inSalaryRange minS maxS)).length
        ++ " employee(s) with a " ++ toString p ++ "% salary increase."⟩

/-- Sample employee with a given id, names and salary (other fields
fixed); used for concrete scenarios. -/
def mkEmp (id : Int) (fn ln sn : String) (sal : ℚ) : Employee :=
  { emp_id := id, first_name := fn, last_name := ln, ssn := sn,
    email := fn ++ "@company2.com", phone := "555-0100", hire_date := "2022-01-15",
    job_title := "Software Engineer", division := "Engineering",
    salary := sal, status := "active" }

/-- Character-level test used by the ilike model: does `pat` occur at the
head of `s`? -/
def matchesAt : List Char → List Char → Bool
  | [], _ => true
  | _ :: _, [] => false
  | p :: ps, c :: cs => p == c && matchesAt ps cs

/-- Does `pat` occur as a contiguous sublist of `s`? -/
def hasSubList (pat : List Char) : List Char → Bool
  | [] => pat.isEmpty
  | c :: cs => matchesAt pat (c :: cs) || hasSubList pat cs

/-- The store filter `ilike '%term%'` (spec section 6: case-insensitive
substring): `term` occurs in `s` up to case. -/
def ciContains (term s : String) : Bool :=
  hasSubList (term.toList.map Char.toLower) (s.toList.map Char.toLower)

/-- `handleSearch`, name case:
`or(first_name.ilike.%term%,last_name.ilike.%term%)`. -/
def searchByName (term : String) (es : List Employee) : List Employee :=
  es.filter fun e => ciContains term e.first_name || ciContains term e.last_name

/-- `handleSearch`, ssn case: `eq('ssn', searchTerm)` — exact,
case-sensitive string equality. -/
def searchBySsn (term : String) (es : List Employee) : List Employee :=
  es.filter fun e => e.ssn == term

/-- Whitespace recognized by the JavaScript number/string functions
involved here (space, tab, newline, carriage return). -/
def isSpaceJS (c : Char) : Bool :=
  c == ' ' || c == '\t' || c == '\n' || c == '\r'

/-- Accumulate leading decimal digits, stopping at the first non-digit
(as JavaScript `parseInt` does). -/
def parseDigitsAux : List Char → Nat → Nat
  | [], acc => acc
  | c :: cs, acc =>
    if c.isDigit then parseDigitsAux cs (acc * 10 + (c.toNat - 48)) else acc

/-- Parse a non-empty run of leading decimal digits; `none` when the
first character is not a digit. -/
def parseDigits : List Char → Option Nat
  | [] => none
  | c :: cs =>
    if c.isDigit then some (parseDigitsAux cs (c.toNat - 48)) else none

/-- JavaScript `parseInt(s)` (decimal): skip leading whitespace, accept an
optional sign, then read leading digits; `none` models `NaN` (no digit
found). The result is `none` exactly when `parseInt` yields `NaN`. -/
def parseIntJS (s : String) : Option Int :=
  match s.toList.dropWhile isSpaceJS with
  | '-' :: rest => (parseDigits rest).map fun n => -(n : Int)
  | '+' :: rest => (parseDigits rest).map fun n => (n : Int)
  | rest => (parseDigits rest).map fun n => (n : Int)

/-- Store-side equality of a possibly-NaN query value against a numeric
column: `NaN` compares unequal to everything. -/
def jsNumEq (v : Option Int) (n : Int) : Bool :=
  match v with
  | some m => m == n
  | none => false

/-- `handleSearch`, empid case: `eq('emp_id', parseInt(searchTerm))` —
the parsed value is passed through unvalidated. -/
def searchByEmpId (term : String) (es : List Employee) : List Employee :=
  es.filter fun e => jsNumEq (parseIntJS term) e.emp_id

/-- JavaScript `String.prototype.trim`: drop whitespace from both ends. -/
def jsTrim (s : String) : String :=
  ⟨((s.toList.dropWhile isSpaceJS).reverse.dropWhile isSpaceJS).reverse⟩

/-- The search-by selector of `EmployeeSearch` (`name`, `ssn`, `empid`). -/
inductive SearchType where
  | name
  | ssn
  | empid
  deriving Repr, DecidableEq

/-- The store query built by the `switch` in `handleSearch`. -/
inductive StoreQuery where
  | byName (term : String)
  | bySsn (term : String)
  | byEmpId (v : Option Int)
  deriving Repr, DecidableEq

/-- Translate the (term, selector) pair into the issued store filter. -/
def buildQuery (stype : SearchType) (term : String) : StoreQuery :=
  match stype with
  | .name => .byName term
  | .ssn => .bySsn term
  | .empid => .byEmpId (parseIntJS term)

/-- Store-side evaluation of a search query against the employees table. -/
def runQuery (q : StoreQuery) (es : List Employee) : List Employee :=
  match q with
  | .byName t => searchByName t es
  | .bySsn t => searchBySsn t es
  | .byEmpId v => es.filter fun e => jsNumEq v e.emp_id

/-- Screen state of `EmployeeSearch` (results list and loading flag). -/
structure SearchState where
  results : List Employee
  loading : Bool
  deriving Repr, DecidableEq

/-- Initial `EmployeeSearch` state: `useState([])`, `useState(false)`. -/
def initialSearchState : SearchState := ⟨[], false⟩

/-- `EmployeeSearch.handleSearch` as a state transition. Inputs: the raw
term, the selector, the awaited store response (`ok rows` or an error),
and the prior screen state. Output: the next state, the queries issued,
and the console log entries. The guard `if (!searchTerm.trim()) return;`
fires before anything else; on success results are replaced and loading
cleared; on error the error is logged, results are left as they were and
loading is cleared (the `catch`/`finally` of the source). -/
def handleSearchSubmit (term : String) (stype : SearchType)
    (resp : Except String (List Employee)) (s : SearchState) :
    SearchState × List StoreQuery × List String :=
  if jsTrim term == "" then (s, [], [])
  else
    match resp with
    | .ok rows => (⟨rows, false⟩, [buildQuery stype term], [])
    | .error msg =>
        (⟨s.results, false⟩, [buildQuery stype term],
          ["Error searching employees: " ++ msg])

/-- One group of the report reduction: the accumulator entry
`{ total, count }` of `fetchPayByJobTitle` / `fetchPayByDivision`,
together with its string key (job title or division). -/
structure GroupAcc where
  key : String
  total : ℚ
  count : Nat
  deriving Repr, DecidableEq

/-- One step of the `reduce`: `if (!acc[k]) acc[k] = {total: 0, count: 0};
acc[k].total += gross; acc[k].count += 1`. The accumulator is the
JavaScript object, modelled as an association list in insertion order
with unique keys (update the entry if the key is present, else append). -/
def addRow : List GroupAcc → String → ℚ → List GroupAcc
  | [], k, g => [⟨k, g, 1⟩]
  | a :: rest, k, g =>
    if a.key == k then ⟨a.key, a.total + g, a.count + 1⟩ :: rest
    else a :: addRow rest k g

/-- The whole `reduce(...)` over the fetched rows, each row carrying its
grouping key (the joined `job_title` or `division`) and its `gross_pay`. -/
def groupReduce (rows : List (String × ℚ)) : List GroupAcc :=
  rows.foldl (fun acc r => addRow acc r.1 r.2) []

/-- Sum of `total_pay` over the produced groups. -/
def sumTotals (gs : List GroupAcc) : ℚ := (gs.map GroupAcc.total).sum

/-- Sum of `employee_count` over the produced groups. -/
def sumCounts (gs : List GroupAcc) : Nat := (gs.map GroupAcc.count).sum

/-- The render-time average of the reports table:
`Math.round(item.total_pay / item.employee_count)`. -/
def avgPay (g : GroupAcc) : ℤ := jsRound (g.total / (g.count : ℚ))

/-- Screen state of the grouped reports (group list and loading flag). -/
structure ReportState where
  groups : List GroupAcc
  loading : Bool
  deriving Repr, DecidableEq

/-- Initial report state: `useState([])`, `useState(false)`. -/
def initialReportState : ReportState := ⟨[], false⟩

/-- `Reports.fetchPayByJobTitle` from the awaited store response on: on
success the fetched rows are reduced with `groupReduce` and stored; on
error the error is logged, the previous groups are kept and loading is
cleared (the `catch`/`finally` of the source). The second component is
the console log. `fetchPayByDivision` is the same code with the grouping
key `division` instead of `job_title`. -/
def fetchPayByJobTitleStep (resp : Except String (List (String × ℚ)))
    (s : ReportState) : ReportState × List String :=
  match resp with
  | .ok rows => (⟨groupReduce rows, false⟩, [])
  | .error msg =>
      (⟨s.groups, false⟩, ["Error fetching pay by job title: " ++ msg])

/-- A calendar date (year, month, day). -/
structure Date where
  y : Nat
  m : Nat
  d : Nat
  deriving Repr, DecidableEq

/-- Chronological order on dates (the order the store uses to compare the
`date` columns against the query bounds). -/
def Date.le (a b : Date) : Bool :=
  Nat.blt a.y b.y ||
    (a.y == b.y && (Nat.blt a.m b.m || (a.m == b.m && Nat.ble a.d b.d)))

/-- Gregorian leap year, as computed by the JavaScript `Date` object. -/
def isLeap (y : Nat) : Bool :=
  (y % 4 == 0 && y % 100 != 0) || y % 400 == 0

/-- Number of days of month `m` of year `y` (what
`new Date(year, month + 1, 0).getDate()` yields). -/
def daysInMonth (y m : Nat) : Nat :=
  if m == 2 then (if isLeap y then 29 else 28)
  else if m == 4 || m == 6 || m == 9 || m == 11 then 30
  else 31

/-- `new Date(selectedMonth + '-01')`: the first day of the month. -/
def monthStart (y m : Nat) : Date := ⟨y, m, 1⟩

/-- `new Date(startDate.getFullYear(), startDate.getMonth() + 1, 0)`:
the last day of the month. -/
def monthEnd (y m : Nat) : Date := ⟨y, m, daysInMonth y m⟩

/-- Pay statement row, after `src/project/src/types/employee.ts` and the
`pay_statements` table. -/
structure PayStatement where
  id : Int
  emp_id : Int
  pay_period_start : Date
  pay_period_end : Date
  gross_pay : ℚ
  deductions : ℚ
  net_pay : ℚ
  deriving Repr, DecidableEq

/-- The month filter of `fetchPayByJobTitle` / `fetchPayByDivision`:
`gte('pay_period_start', startDate)` and `lte('pay_period_end', endDate)`. -/
def inMonth (y m : Nat) (ps : PayStatement) : Bool :=
  Date.le (monthStart y m) ps.pay_period_start
    && Date.le ps.pay_period_end (monthEnd y m)

/-- The row set fetched for the selected month. -/
def fetchMonthStatements (y m : Nat) (store : List PayStatement) :
    List PayStatement :=
  store.filter (inMonth y m)

/-- Sample statement: first January 2024 half-month row of the seed data. -/
def janFirstHalf : PayStatement :=
  ⟨1, 1, ⟨2024, 1, 1⟩, ⟨2024, 1, 15⟩, 288462 / 100, 57692 / 100, 230770 / 100⟩

/-- Sample statement: second January 2024 half-month row of the seed data. -/
def janSecondHalf : PayStatement :=
  ⟨2, 1, ⟨2024, 1, 16⟩, ⟨2024, 1, 31⟩, 288462 / 100, 57692 / 100, 230770 / 100⟩

/-- Sample statement spanning into February (ends after the last day of
January). -/
def febSpanStatement : PayStatement :=
  ⟨3, 1, ⟨2024, 1, 20⟩, ⟨2024, 2, 3⟩, 288462 / 100, 57692 / 100, 230770 / 100⟩

/-- The pointwise effect of one `updateSalaryById` step on one employee. -/
def salaryStep (e : Employee) (u : Int × ℚ) : Employee :=
  if e.emp_id == u.1 then { e with salary := u.2 } else e

/-- The cumulative effect of the update loop on one employee. -/
def applySalaryUpdates (us : List (Int × ℚ)) (e : Employee) : Employee :=
  us.foldl salaryStep e

lemma applySalaryUpdates_nil (e : Employee) : applySalaryUpdates [] e = e := rfl

lemma applySalaryUpdates_cons (u : Int × ℚ) (us : List (Int × ℚ)) (e : Employee) :
    applySalaryUpdates (u :: us) e = applySalaryUpdates us (salaryStep e u) := rfl

lemma applySalaryUpdates_append (l1 l2 : List (Int × ℚ)) (e : Employee) :
    applySalaryUpdates (l1 ++ l2) e = applySalaryUpdates l2 (applySalaryUpdates l1 e) :=
  List.foldl_append ..

lemma salaryStep_emp_id (e : Employee) (u : Int × ℚ) :
    (salaryStep e u).emp_id = e.emp_id := by
  unfold salaryStep
  split <;> rfl

/-- Updates whose target id differs from the employee id leave the employee
untouched. -/
lemma applySalaryUpdates_skip (us : List (Int × ℚ)) (e : Employee)
    (h : e.emp_id ∉ us.map Prod.fst) : applySalaryUpdates us e = e := by
  induction us with
  | nil => rfl
  | cons u us ih =>
    rw [List.map_cons, List.mem_cons] at h
    push_neg at h
    rw [applySalaryUpdates_cons]
    have hstep : salaryStep e u = e := by
      unfold salaryStep
      simp [h.1]
    rw [hstep]
    exact ih h.2

/-- If the update list contains exactly one update aimed at the employee,
that update lands and nothing else touches the row. -/
lemma applySalaryUpdates_found (A B : List (Int × ℚ)) (v : ℚ) (e : Employee)
    (hA : e.emp_id ∉ A.map Prod.fst) (hB : e.emp_id ∉ B.map Prod.fst) :
    applySalaryUpdates (A ++ (e.emp_id, v) :: B) e = { e with salary := v } := by
  rw [applySalaryUpdates_append, applySalaryUpdates_skip A e hA,
    applySalaryUpdates_cons]
  have hstep : salaryStep e (e.emp_id, v) = { e with salary := v } := by
    unfold salaryStep
    simp
  rw [hstep]
  exact applySalaryUpdates_skip B _ hB

/-- The store-level update loop acts independently on each row. -/
lemma foldl_update_eq_map (us : List (Int × ℚ)) (store : List Employee) :
    us.foldl (fun st u => updateSalaryById st u.1 u.2) store
      = store.map (applySalaryUpdates us) := by
  induction us generalizing store with
  | nil =>
    rw [List.foldl_nil]
    have h0 : ∀ e ∈ store, applySalaryUpdates [] e = id e := fun e _ => rfl
    rw [List.map_congr_left h0, List.map_id]
  | cons u us ih =>
    rw [List.foldl_cons, ih]
    unfold updateSalaryById
    rw [List.map_map]
    apply List.map_congr_left
    intro e _
    rfl

/-- The first components of the issued updates are the ids of the
matching employees, in order. -/
lemma bulkUpdates_map_fst (p : ℚ) (l : List Employee) :
    (bulkUpdates p l).map Prod.fst = l.map Employee.emp_id := by
  unfold bulkUpdates
  rw [List.map_map]
  rfl

/-- Claim C1: after a bulk salary adjustment at percentage p over the
half-open range [min, max), every employee whose old salary satisfies
min ≤ salary < max ends with salary round(old * (1 + p/100)), and every
employee outside the range is unchanged. Stated under the primary-key
uniqueness of emp_id (the employees table primary key). -/
theorem bulkAdjust_updates_exactly_range (p minS maxS : ℚ) (store : List Employee)
    (h : (store.map Employee.emp_id).Nodup) :
    (bulkAdjust p minS maxS store).store
      = store.map fun e =>
          if inSalaryRange minS maxS e then adjustSalary p e else e := by
  unfold bulkAdjust
  by_cases hemp : (store.filter (inSalaryRange minS maxS)).isEmpty = true
  · rw [if_pos hemp]
    rw [List.isEmpty_iff, List.filter_eq_nil_iff] at hemp
    show store = _
    symm
    have hid : ∀ e ∈ store,
        (if inSalaryRange minS maxS e then adjustSalary p e else e) = id e := by
      intro e he
      rw [if_neg (hemp e he)]
      rfl
    rw [List.map_congr_left hid, List.map_id]
  · rw [if_neg hemp]
    show (bulkUpdates p (store.filter (inSalaryRange minS maxS))).foldl
        (fun st u => updateSalaryById st u.1 u.2) store = _
    rw [foldl_update_eq_map]
    apply List.map_congr_left
    intro e he
    by_cases hr : inSalaryRange minS maxS e = true
    · rw [if_pos hr]
      have hmem : e ∈ store.filter (inSalaryRange minS maxS) :=
        List.mem_filter.mpr ⟨he, hr⟩
      obtain ⟨A, B, hAB⟩ := List.append_of_mem hmem
      have hmat_nodup : ((store.filter (inSalaryRange minS maxS)).map
          Employee.emp_id).Nodup :=
        (List.Sublist.map Employee.emp_id (List.filter_sublist store)).nodup h
      have hn : ((A.map Employee.emp_id)
          ++ e.emp_id :: (B.map Employee.emp_id)).Nodup := by
        rw [hAB, List.map_append, List.map_cons] at hmat_nodup
        exact hmat_nodup
      rw [List.nodup_append] at hn
      have hB : e.emp_id ∉ B.map Employee.emp_id := by
        have hc := hn.2.1
        rw [List.nodup_cons] at hc
        exact hc.1
      have hA : e.emp_id ∉ A.map Employee.emp_id := fun hmemA =>
        hn.2.2 hmemA (List.mem_cons_self _ _)
      have hup : bulkUpdates p (store.filter (inSalaryRange minS maxS))
          = bulkUpdates p A
            ++ (e.emp_id, ((jsRound (e.salary * (1 + p / 100)) : ℤ) : ℚ))
              :: bulkUpdates p B := by
        rw [hAB]
        unfold bulkUpdates
        rw [List.map_append, List.map_cons]
      rw [hup, applySalaryUpdates_found (bulkUpdates p A) (bulkUpdates p B) _ e
        (by rw [bulkUpdates_map_fst]; exact hA)
        (by rw [bulkUpdates_map_fst]; exact hB)]
      rfl
    · rw [if_neg hr]
      apply applySalaryUpdates_skip
      rw [bulkUpdates_map_fst]
      intro hmemId
      obtain ⟨m, hm, hme⟩ := List.mem_map.mp hmemId
      have hms : m ∈ store := (List.mem_filter.mp hm).1
      have hme2 : m = e := List.inj_on_of_nodup_map h hms he hme
      rw [hme2] at hm
      exact hr (List.mem_filter.mp hm).2

/-- Witness for the bulk-adjustment theorem at a concrete two-row store
with distinct primary keys. -/
theorem bulkAdjust_updates_exactly_range_witness :
    (([mkEmp 1 "John" "Smith" "123456789" 60000,
       mkEmp 2 "Sarah" "Johnson" "234567890" 200000].map Employee.emp_id).Nodup)
    ∧ (bulkAdjust 10 50000 100000
        [mkEmp 1 "John" "Smith" "123456789" 60000,
         mkEmp 2 "Sarah" "Johnson" "234567890" 200000]).store
      = [mkEmp 1 "John" "Smith" "123456789" 60000,
         mkEmp 2 "Sarah" "Johnson" "234567890" 200000].map
          fun e => if inSalaryRange 50000 100000 e then adjustSalary 10 e else e :=
  ⟨by decide, bulkAdjust_updates_exactly_range 10 50000 100000 _ (by decide)⟩

/-- Claim C2: with range [58000, 105000) and percentage 3.2, an employee
at 58000 ends at round(58000 × 1.032) = 59856 and one at 104999 ends at
round(104999 × 1.032) = 108359, while one at exactly 105000 is not
selected (no update is issued for it) and keeps its salary: the upper
bound is exclusive. -/
theorem bulkAdjust_scenario_3_2_percent :
    (bulkAdjust (16 / 5) 58000 105000
      [mkEmp 1 "A" "B" "111" 58000, mkEmp 2 "C" "D" "222" 104999,
       mkEmp 3 "E" "F" "333" 105000]).store.map Employee.salary
      = [59856, 108359, 105000]
    ∧ (bulkAdjust (16 / 5) 58000 105000
        [mkEmp 1 "A" "B" "111" 58000, mkEmp 2 "C" "D" "222" 104999,
         mkEmp 3 "E" "F" "333" 105000]).affected = 2
    ∧ (bulkAdjust (16 / 5) 58000 105000
        [mkEmp 1 "A" "B" "111" 58000, mkEmp 2 "C" "D" "222" 104999,
         mkEmp 3 "E" "F" "333" 105000]).updatesIssued.map Prod.fst = [1, 2] := by
  refine ⟨?_, ?_, ?_⟩ <;>
    norm_num [bulkAdjust, bulkUpdates, inSalaryRange, mkEmp, updateSalaryById,
      jsRound, List.filter]

/-- A duplicate-free list whose elements are all equal has at most one
element. -/
lemma length_le_one_of_nodup_const {α : Type} (l : List α) (c : α)
    (hn : l.Nodup) (hc : ∀ x ∈ l, x = c) : l.length ≤ 1 := by
  cases l with
  | nil => simp
  | cons a l2 =>
    cases l2 with
    | nil => simp
    | cons b l3 =>
      exfalso
      rw [List.nodup_cons] at hn
      have hab : a = b := (hc a (by simp)).trans (hc b (by simp)).symm
      exact hn.1 (by rw [hab]; simp)

/-- Claim C3: ssn search is an exact, case-sensitive equality match and,
under the uniqueness constraint on the ssn column, returns at most one
record; name search returns exactly the employees whose first or last
name contains the term as a case-insensitive substring. -/
theorem search_ssn_unique_name_substring (term : String) (es : List Employee)
    (h : (es.map Employee.ssn).Nodup) :
    (searchBySsn term es).length ≤ 1
    ∧ (∀ e, e ∈ searchBySsn term es ↔ e ∈ es ∧ e.ssn = term)
    ∧ (∀ e, e ∈ searchByName term es ↔
        e ∈ es ∧ (ciContains term e.first_name = true
          ∨ ciContains term e.last_name = true)) := by
  refine ⟨?_, ?_, ?_⟩
  · have hsub : (searchBySsn term es).Sublist es := List.filter_sublist es
    have hnd : ((searchBySsn term es).map Employee.ssn).Nodup :=
      (List.Sublist.map _ hsub).nodup h
    have hconst : ∀ x ∈ (searchBySsn term es).map Employee.ssn, x = term := by
      intro x hx
      obtain ⟨e, he, hex⟩ := List.mem_map.mp hx
      have hss : (e.ssn == term) = true := (List.mem_filter.mp he).2
      rw [← hex]
      exact beq_iff_eq.mp hss
    have := length_le_one_of_nodup_const _ term hnd hconst
    rwa [List.length_map] at this
  · intro e
    simp [searchBySsn, List.mem_filter]
  · intro e
    simp [searchByName, List.mem_filter, Bool.or_eq_true]

/-- Witness for the search theorem on a three-row store with distinct
ssn values. -/
theorem search_ssn_unique_name_substring_witness :
    (([mkEmp 1 "John" "Smith" "123456789" 60000,
       mkEmp 2 "Sarah" "Johnson" "234567890" 68000,
       mkEmp 3 "Michael" "Brown" "345678901" 52000].map Employee.ssn).Nodup)
    ∧ (searchBySsn "234567890"
        [mkEmp 1 "John" "Smith" "123456789" 60000,
         mkEmp 2 "Sarah" "Johnson" "234567890" 68000,
         mkEmp 3 "Michael" "Brown" "345678901" 52000]).length ≤ 1 :=
  ⟨by decide,
    (search_ssn_unique_name_substring "234567890"
      [mkEmp 1 "John" "Smith" "123456789" 60000,
       mkEmp 2 "Sarah" "Johnson" "234567890" 68000,
       mkEmp 3 "Michael" "Brown" "345678901" 52000] (by decide)).1⟩

/-- Claim C4: the month fetch keeps exactly the statements whose period
start is at or after the first day of the month and whose period end is
at or before its last day; for January 2024 both half-month seed rows
pass the filter and a statement running into February is dropped. -/
theorem month_filter_characterization :
    (∀ (y m : Nat) (store : List PayStatement) (ps : PayStatement),
      ps ∈ fetchMonthStatements y m store ↔
        ps ∈ store ∧ Date.le (monthStart y m) ps.pay_period_start = true
          ∧ Date.le ps.pay_period_end (monthEnd y m) = true)
    ∧ inMonth 2024 1 janFirstHalf = true
    ∧ inMonth 2024 1 janSecondHalf = true
    ∧ inMonth 2024 1 febSpanStatement = false
    ∧ (fetchMonthStatements 2024 1
        [janFirstHalf, janSecondHalf, febSpanStatement]).map PayStatement.id
      = [1, 2] := by
  refine ⟨?_, by decide, by decide, by decide, by decide⟩
  intro y m store ps
  simp [fetchMonthStatements, List.mem_filter, inMonth, Bool.and_eq_true]

/-- Claim C6: when no employee falls in [min, max), the operation reports
zero affected with the "no employees found" message, leaves the store
untouched and issues no update. -/
theorem bulkAdjust_empty_range (p minS maxS : ℚ) (store : List Employee)
    (h : store.filter (inSalaryRange minS maxS) = []) :
    bulkAdjust p minS maxS store
      = ⟨store, [], 0, "No employees found in the specified salary range."⟩ := by
  unfold bulkAdjust
  rw [if_pos (List.isEmpty_iff.mpr h)]

/-- Witness for the empty-range theorem: one employee, well outside the
range. -/
theorem bulkAdjust_empty_range_witness :
    [mkEmp 1 "John" "Smith" "123456789" 200000].filter (inSalaryRange 0 100) = []
    ∧ bulkAdjust 10 0 100 [mkEmp 1 "John" "Smith" "123456789" 200000]
      = ⟨[mkEmp 1 "John" "Smith" "123456789" 200000], [], 0,
          "No employees found in the specified salary range."⟩ :=
  ⟨by decide, bulkAdjust_empty_range 10 0 100 _ (by decide)⟩

/-- One reduce step adds the row's gross pay to the total of exactly one
group. -/
lemma addRow_sumTotals (acc : List GroupAcc) (k : String) (g : ℚ) :
    sumTotals (addRow acc k g) = sumTotals acc + g := by
  induction acc with
  | nil => simp [addRow, sumTotals]
  | cons a rest ih =>
    unfold addRow
    by_cases hk : (a.key == k) = true
    · rw [if_pos hk]
      unfold sumTotals
      rw [List.map_cons, List.map_cons, List.sum_cons, List.sum_cons]
      ring
    · rw [if_neg hk]
      unfold sumTotals at ih ⊢
      rw [List.map_cons, List.sum_cons, List.map_cons, List.sum_cons, ih]
      ring

/-- One reduce step adds one to the count of exactly one group. -/
lemma addRow_sumCounts (acc : List GroupAcc) (k : String) (g : ℚ) :
    sumCounts (addRow acc k g) = sumCounts acc + 1 := by
  induction acc with
  | nil => simp [addRow, sumCounts]
  | cons a rest ih =>
    unfold addRow
    by_cases hk : (a.key == k) = true
    · rw [if_pos hk]
      unfold sumCounts
      rw [List.map_cons, List.map_cons, List.sum_cons, List.sum_cons]
      dsimp only
      omega
    · rw [if_neg hk]
      unfold sumCounts at ih ⊢
      rw [List.map_cons, List.sum_cons, List.map_cons, List.sum_cons, ih]
      omega

/-- The fold of the reduce conserves the running total. -/
lemma groupFold_sumTotals (rows : List (String × ℚ)) (acc : List GroupAcc) :
    sumTotals (rows.foldl (fun a r => addRow a r.1 r.2) acc)
      = sumTotals acc + (rows.map Prod.snd).sum := by
  induction rows generalizing acc with
  | nil => simp
  | cons r rows ih =>
    rw [List.foldl_cons, ih, addRow_sumTotals, List.map_cons, List.sum_cons]
    ring

/-- The fold of the reduce counts every consumed row once. -/
lemma groupFold_sumCounts (rows : List (String × ℚ)) (acc : List GroupAcc) :
    sumCounts (rows.foldl (fun a r => addRow a r.1 r.2) acc)
      = sumCounts acc + rows.length := by
  induction rows generalizing acc with
  | nil => simp
  | cons r rows ih =>
    rw [List.foldl_cons, ih, addRow_sumCounts, List.length_cons]
    omega

/-- Claim C5: the group-by-sum-count reduction conserves totals — the sum
over the groups of total_pay equals the sum of gross_pay over the input
rows, and the sum of employee_count over the groups equals the number of
input rows (statement rows, not distinct employees). -/
theorem groupReduce_conserves (rows : List (String × ℚ)) :
    sumTotals (groupReduce rows) = (rows.map Prod.snd).sum
    ∧ sumCounts (groupReduce rows) = rows.length := by
  constructor
  · rw [groupReduce, groupFold_sumTotals]
    simp [sumTotals]
  · rw [groupReduce, groupFold_sumCounts]
    simp [sumCounts]

/-- One reduce step preserves "every group has been hit at least once". -/
lemma addRow_counts_pos (acc : List GroupAcc) (k : String) (g : ℚ)
    (h : ∀ x ∈ acc, 1 ≤ x.count) : ∀ x ∈ addRow acc k g, 1 ≤ x.count := by
  induction acc with
  | nil =>
    intro x hx
    simp only [addRow, List.mem_singleton] at hx
    rw [hx]
  | cons a rest ih =>
    intro x hx
    unfold addRow at hx
    by_cases hk : (a.key == k) = true
    · rw [if_pos hk] at hx
      rcases List.mem_cons.mp hx with hx1 | hx2
      · rw [hx1]
        exact Nat.le_add_left 1 a.count
      · exact h x (List.mem_cons_of_mem _ hx2)
    · rw [if_neg hk] at hx
      rcases List.mem_cons.mp hx with hx1 | hx2
      · rw [hx1]
        exact h a (List.mem_cons_self _ _)
      · exact ih (fun y hy => h y (List.mem_cons_of_mem _ hy)) x hx2

/-- The fold of the reduce preserves positive counts. -/
lemma groupFold_counts_pos (rows : List (String × ℚ)) (acc : List GroupAcc)
    (h : ∀ x ∈ acc, 1 ≤ x.count) :
    ∀ x ∈ rows.foldl (fun a r => addRow a r.1 r.2) acc, 1 ≤ x.count := by
  induction rows generalizing acc with
  | nil => simpa using h
  | cons r rows ih =>
    rw [List.foldl_cons]
    exact ih _ (addRow_counts_pos _ _ _ h)

/-- Claim C9: every group produced by the reduction has employee_count at
least one, so the render-time average Math.round(total_pay / employee_count)
never divides by zero. -/
theorem groupReduce_count_pos (rows : List (String × ℚ)) (g : GroupAcc)
    (hg : g ∈ groupReduce rows) : 1 ≤ g.count ∧ ((g.count : ℚ) ≠ 0) := by
  have h1 : 1 ≤ g.count := groupFold_counts_pos rows [] (by simp) g hg
  exact ⟨h1, Nat.cast_ne_zero.mpr (by omega)⟩

/-- Witness for the positive-count theorem at a one-row input. -/
theorem groupReduce_count_pos_witness :
    (⟨"Engineering", 100, 1⟩ : GroupAcc) ∈ groupReduce [("Engineering", 100)]
    ∧ (1 ≤ (⟨"Engineering", 100, 1⟩ : GroupAcc).count
        ∧ (((⟨"Engineering", 100, 1⟩ : GroupAcc).count : ℚ) ≠ 0)) :=
  ⟨List.mem_singleton_self _,
    groupReduce_count_pos [("Engineering", 100)] _ (List.mem_singleton_self _)⟩

/-- Claim C7, counterexample: a failing search query does not reset the
results list — starting from a state showing one employee, the error
leaves that employee on screen, so the UI does not fall back to an empty
state. -/
theorem handleSearch_error_keeps_results_counterexample :
    (handleSearchSubmit "Jo" .name (.error "boom")
        ⟨[mkEmp 1 "John" "Smith" "123456789" 60000], true⟩).1.results
      = [mkEmp 1 "John" "Smith" "123456789" 60000]
    ∧ (handleSearchSubmit "Jo" .name (.error "boom")
        ⟨[mkEmp 1 "John" "Smith" "123456789" 60000], true⟩).1.results ≠ [] := by
  constructor
  · rfl
  · show [mkEmp 1 "John" "Smith" "123456789" 60000] ≠ []
    exact List.cons_ne_nil _ _

/-- Claim C7 as amended: a store failure during a search or report fetch
is logged and otherwise swallowed and the loading flag is cleared, but
the results are left at their previous value rather than reset; from the
initial (empty) state the outcome is identical to a successful query with
zero rows, so no user-visible distinction exists there. -/
theorem handleSearch_error_swallowed (term msg rmsg : String)
    (stype : SearchType) (s : SearchState) (rs : ReportState)
    (h : ¬ jsTrim term = "") :
    (handleSearchSubmit term stype (.error msg) s).1 = ⟨s.results, false⟩
    ∧ (handleSearchSubmit term stype (.error msg) s).2.2
        = ["Error searching employees: " ++ msg]
    ∧ (handleSearchSubmit term stype (.error msg) initialSearchState).1
        = (handleSearchSubmit term stype (.ok []) initialSearchState).1
    ∧ (fetchPayByJobTitleStep (.error rmsg) rs).1 = ⟨rs.groups, false⟩
    ∧ (fetchPayByJobTitleStep (.error rmsg) rs).2
        = ["Error fetching pay by job title: " ++ rmsg]
    ∧ (fetchPayByJobTitleStep (.error rmsg) initialReportState).1
        = (fetchPayByJobTitleStep (.ok []) initialReportState).1 := by
  have hcond : (jsTrim term == "") = false := by
    simp [h]
  refine ⟨?_, ?_, ?_, rfl, rfl, rfl⟩ <;>
    simp [handleSearchSubmit, hcond, initialSearchState]

/-- Witness for the amended error-handling theorem at a concrete term and
states. -/
theorem handleSearch_error_swallowed_witness :
    (¬ jsTrim "Jo" = "")
    ∧ (handleSearchSubmit "Jo" .name (.error "boom")
          ⟨[mkEmp 1 "John" "Smith" "123456789" 60000], true⟩).1
        = ⟨[mkEmp 1 "John" "Smith" "123456789" 60000], false⟩ :=
  ⟨by decide,
    (handleSearch_error_swallowed "Jo" "boom" "x" .name
      ⟨[mkEmp 1 "John" "Smith" "123456789" 60000], true⟩ ⟨[], false⟩
      (by decide)).1⟩

/-- Claim C8: a term that does not parse as an integer is passed through
as the NaN query value `byEmpId none`, which the store matches against no
row, so the search result is empty — no input validation happens. -/
theorem searchByEmpId_nonnumeric_empty (term : String) (es : List Employee)
    (h : parseIntJS term = none) :
    buildQuery .empid term = .byEmpId none
    ∧ searchByEmpId term es = [] := by
  constructor
  · unfold buildQuery
    rw [h]
  · unfold searchByEmpId
    refine List.filter_eq_nil_iff.mpr ?_
    intro e _
    rw [h]
    simp [jsNumEq]

/-- Witness for the non-numeric id search theorem at the term "abc". -/
theorem searchByEmpId_nonnumeric_empty_witness :
    parseIntJS "abc" = none
    ∧ (buildQuery .empid "abc" = .byEmpId none
        ∧ searchByEmpId "abc" [mkEmp 1 "John" "Smith" "123456789" 60000] = []) :=
  ⟨by decide,
    searchByEmpId_nonnumeric_empty "abc"
      [mkEmp 1 "John" "Smith" "123456789" 60000] (by decide)⟩

/-- Claim C10: when the term is empty or all whitespace, submitting the
search performs no store query, logs nothing and returns the screen state
unchanged (the guard precedes even the loading flag update). -/
theorem handleSearch_blank_noop (term : String) (stype : SearchType)
    (resp : Except String (List Employee)) (s : SearchState)
    (h : jsTrim term = "") :
    handleSearchSubmit term stype resp s = (s, [], []) := by
  unfold handleSearchSubmit
  rw [if_pos (by simp [h])]

/-- Witness for the blank-term theorem: three spaces, a loaded screen
state, a response that would have changed it. -/
theorem handleSearch_blank_noop_witness :
    jsTrim "   " = ""
    ∧ handleSearchSubmit "   " .name
        (.ok [mkEmp 2 "Sarah" "Johnson" "234567890" 68000])
        ⟨[mkEmp 1 "John" "Smith" "123456789" 60000], true⟩
      = (⟨[mkEmp 1 "John" "Smith" "123456789" 60000], true⟩, [], []) :=
  ⟨by decide,
    handleSearch_blank_noop "   " .name
      (.ok [mkEmp 2 "Sarah" "Johnson" "234567890" 68000])
      ⟨[mkEmp 1 "John" "Smith" "123456789" 60000], true⟩ (by decide)⟩

end HR
